import Mathlib

set_option maxRecDepth 100000
set_option maxHeartbeats 2000000

/-!
Verification of the natural-language specification of the
`must-ada-parser` repository against a shallow embedding of its two
source files (`src/parser-all.rs`, `src/lib.rs`).

Strings of the modelled programs are represented as `List Char`
(one element per character; the byte length used by the source's
`len()` coincides with the character count on the ASCII data all
claims are about).  The `HashMap<String,String>` previous-value
stores are modelled as association lists with insert-overwrite
semantics, and the effectful Java `main` is embedded as a pure
function whose external collaborators (file system, socket) are
explicit parameters.
-/

/-- Program strings are sequences of characters. -/
abbrev Str : Type := List Char

/-- Char-list view of a Lean string literal. -/
def str (s : String) : Str := s.data

/-- Embedding of `ensure_even_rust` (src/parser-all.rs, lines 207-213):
append one space when the length is odd. -/
def ensure_even_rust (s : Str) : Str :=
  if s.length % 2 = 1 then s ++ [' '] else s

/-- Embedding of `ensureEvenJava` (src/parser-all.rs, lines 16-20);
textually the same normalization as the Rust side. -/
def ensureEvenJava (s : Str) : Str :=
  if s.length % 2 = 1 then s ++ [' '] else s

/-- Numeric value of a digit string (base 10). -/
def charsToNat (cs : Str) : Nat := cs.foldl (fun a c => a * 10 + (c.toNat - 48)) 0

/-- Digits part of integer parsing: nonempty all-ASCII-digit strings only,
as in Rust `parse::<i128>` and Java `Long.parseLong`. -/
def digitsVal : Str → Option Nat
  | [] => none
  | cs => if cs.all Char.isDigit then some (charsToNat cs) else none

/-- Signed integer literal syntax shared by Rust `parse` and Java
`Long.parseLong`: optional single leading sign, then digits. -/
def parseIntRaw : Str → Option Int
  | [] => none
  | c :: cs =>
    if c = '+' then (digitsVal cs).map (fun n => (n : Int))
    else if c = '-' then (digitsVal cs).map (fun n => -(n : Int))
    else (digitsVal (c :: cs)).map (fun n => (n : Int))

/-- Rust `str::parse::<i128>`: fails (Err) outside the i128 range. -/
def parseI128 (s : Str) : Option Int :=
  (parseIntRaw s).bind (fun n => if -(2 ^ 127) ≤ n ∧ n < 2 ^ 127 then some n else none)

/-- Java `Long.parseLong`: throws outside the 64-bit signed range
(the throw is caught by the caller in the modelled code). -/
def parseI64 (s : Str) : Option Int :=
  (parseIntRaw s).bind (fun n => if -(2 ^ 63) ≤ n ∧ n < 2 ^ 63 then some n else none)

/-- Fuelled decimal rendering of a natural number (fuel is always
sufficient, see `natToStr`). -/
def natToStrAux : Nat → Nat → Str
  | 0, _ => []
  | fuel + 1, n => if n < 10 then [Nat.digitChar n] else natToStrAux fuel (n / 10) ++ [Nat.digitChar (n % 10)]

/-- Decimal rendering of a natural number. -/
def natToStr (n : Nat) : Str := natToStrAux (n + 1) n

/-- Decimal rendering of an integer, as `i128::to_string` /
`Long.toString` produce it. -/
def intToStr : Int → Str
  | Int.ofNat n => natToStr n
  | Int.negSucc n => '-' :: natToStr (n + 1)

/-- Rust `str::trim_start` (whitespace-strip on the left). -/
def trimStartList (s : Str) : Str := s.dropWhile Char.isWhitespace

/-- Rust `str::trim_end`. -/
def trimEndList (s : Str) : Str := (s.reverse.dropWhile Char.isWhitespace).reverse

/-- Rust `str::trim`. -/
def rustTrim (s : Str) : Str := trimEndList (trimStartList s)

/-- Java `String.trim`: strips characters with code point at most 32
from both ends. -/
def javaTrim (s : Str) : Str :=
  ((s.dropWhile (fun c => c.toNat ≤ 32)).reverse.dropWhile (fun c => c.toNat ≤ 32)).reverse

/-- The previous-value stores (`HashMap<String,String>`) as
association lists. -/
abbrev JMap := List (Str × Str)

/-- `HashMap.get` / `Map.get`: first binding of the key (keys are kept
unique by `mapInsert`). -/
def mapGet : JMap → Str → Option Str
  | [], _ => none
  | (k0, v0) :: rest, k => if k0 = k then some v0 else mapGet rest k

/-- Removal of all bindings of a key (helper for overwrite). -/
def mapErase : JMap → Str → JMap
  | [], _ => []
  | (k0, v0) :: rest, k => if k0 = k then mapErase rest k else (k0, v0) :: mapErase rest k

/-- `HashMap.insert` / `Map.put` with overwrite semantics. -/
def mapInsert (m : JMap) (k v : Str) : JMap := (k, v) :: mapErase m k

/-- Embedding of `check_and_increase_rust` (src/parser-all.rs, lines
216-231): normalize the candidate to even length; when it equals the
stored previous value for the key, increment it if integer-parseable
(after trimming) or append one space otherwise, then re-normalize;
store and return the result together with the updated map. -/
def check_and_increase_rust (prev : JMap) (key : Str) (value : Str) : JMap × Str :=
  let v := ensure_even_rust value
  let v :=
    match mapGet prev key with
    | some p =>
      if p = v then
        let v2 :=
          match parseI128 (rustTrim v) with
          | some n => intToStr (n + 1)
          | none => v ++ [' ']
        ensure_even_rust v2
      else v
    | none => v
  (mapInsert prev key v, v)

/-- Embedding of `checkAndIncreaseJava` (src/parser-all.rs, lines
23-39): same shape as the Rust side, with `Long.parseLong` (64-bit,
exceptions caught as the non-numeric case) and `String.trim`. -/
def checkAndIncreaseJava (prev : JMap) (key : Str) (value : Str) : JMap × Str :=
  let v := ensureEvenJava value
  let v :=
    match mapGet prev key with
    | some p =>
      if p = v then
        let v2 :=
          match parseI64 (javaTrim v) with
          | some n => intToStr (n + 1)
          | none => v ++ [' ']
        ensureEvenJava v2
      else v
    | none => v
  (mapInsert prev key v, v)

/-- The closed set of token tags emitted by the tokenizer. -/
inductive Tok
  | DEF
  | CLASS
  | IMPORT
  | STMT
deriving DecidableEq

/-- The string literal the tokenizer loop pushes for each tag. -/
def tokStr : Tok → Str
  | .DEF => str "DEF"
  | .CLASS => str "CLASS"
  | .IMPORT => str "IMPORT"
  | .STMT => str "STMT"

/-- Rust `str::starts_with` on the char-list model. -/
def startsWithList : Str → Str → Bool
  | _, [] => true
  | [], _ :: _ => false
  | c :: cs, p :: ps => c == p && startsWithList cs ps

/-- Rust `str::split(c)`: always at least one (possibly empty) piece,
with empty pieces kept. -/
def splitOnChar (c : Char) : Str → List Str
  | [] => [[]]
  | x :: xs =>
    if x = c then [] :: splitOnChar c xs
    else (x :: (splitOnChar c xs).headD []) :: (splitOnChar c xs).tail

/-- Rust `str::lines`: split on newline, with a final trailing newline
producing no extra empty line (carriage returns do not occur in the
modelled data). -/
def rustLines (s : Str) : List Str :=
  let parts := splitOnChar '\n' s
  if parts.getLast? = some [] then parts.dropLast else parts

/-- Per-line classification of the tokenizer loop (src/parser-all.rs,
lines 249-262): `none` is the skip case. -/
def classifyLine (line : Str) : Option Tok :=
  if startsWithList (trimStartList line) (str "def ") then some .DEF
  else if startsWithList (trimStartList line) (str "class ") then some .CLASS
  else if startsWithList (trimStartList line) (str "import ")
      || startsWithList (trimStartList line) (str "from ") then some .IMPORT
  else if startsWithList (trimStartList line) (str "#")
      || (trimStartList line).isEmpty then none
  else some .STMT

/-- Token sequence produced by the scanning loop of
`tokenize_even_checked` (the `tokens` vector before joining). -/
def tokenizeToks (source : Str) : List Tok := (rustLines source).filterMap classifyLine

/-- Rust `Vec::join(",")`. -/
def intercalateComma : List Str → Str
  | [] => []
  | [p] => p
  | p :: q :: rest => p ++ ',' :: intercalateComma (q :: rest)

/-- Embedding of `tokenize_even_checked` (src/parser-all.rs, lines
242-266): empty-or-whitespace input short-circuits to the string
`"[]"`; otherwise the classified tags are joined with commas,
even-normalized and passed through a freshly created tracker map. -/
def tokenize_even_checked (source : Str) : Str :=
  if rustTrim source = [] then
    (check_and_increase_rust [] (str "tokens_empty") (ensure_even_rust (str "[]"))).2
  else
    let joined := intercalateComma ((tokenizeToks source).map tokStr)
    (check_and_increase_rust [] (str "tokens_joined") (ensure_even_rust joined)).2

/-- Serialized child node built by the loop of `build_ast_from_tokens`
(src/parser-all.rs, lines 277-283): both the kind and the synthetic
name are even-normalized before formatting. -/
def astChildNode (i : Nat) (t : Str) : Str :=
  str "\x7b\"kind\":\"" ++ ensure_even_rust t ++ str "\",\"name\":\""
    ++ ensure_even_rust ('n' :: natToStr i) ++ str "\"\x7d"

/-- Embedding of `build_ast_from_tokens` (src/parser-all.rs, lines
269-288): split the joined token string on commas, drop empty pieces,
render one child per piece, wrap in the Program root, even-normalize
and pass through a freshly created tracker map. -/
def build_ast_from_tokens (tokens : Str) : Str :=
  if rustTrim tokens = [] then
    (check_and_increase_rust [] (str "ast_empty")
      (ensure_even_rust (str "\x7b\"kind\":\"Program\",\"children\":[]\x7d"))).2
  else
    let toks := (splitOnChar ',' tokens).filter (fun s => !s.isEmpty)
    let body := intercalateComma (toks.enum.map (fun p => astChildNode p.1 p.2))
    let ast := str "\x7b\"kind\":\"Program\",\"children\":[" ++ body ++ str "]\x7d"
    (check_and_increase_rust [] (str "ast_built") (ensure_even_rust ast)).2

/-- Embedding of `rust_inline_parse` (src/parser-all.rs, lines
234-239): a constant placeholder passed through a freshly created
tracker map. -/
def rust_inline_parse (_source : Str) : Str :=
  (check_and_increase_rust [] (str "fallback_res")
    (ensure_even_rust (str "\x7b\"kind\":\"Program\",\"children\":[]\x7d"))).2

/-- Socket and file-system collaborators of the Java `main`
(src/parser-all.rs, lines 41-199).  `fs` maps a path to the decoded
file content when the file exists; `socketResp` is the full response
read from the fallback socket, with `none` covering every failure of
the try-block (connection refused, write error, stream error) that the
catch clause absorbs. -/
structure JEnv where
  fs : Str → Option Str
  socketResp : Option Str

/-- Observable output of one run of the Java `main`: the lines written
to standard output and to standard error, in order. -/
structure JOut where
  stdout : List Str
  stderr : List Str
deriving DecidableEq

/-- The part of `MixedCombinedParser.main` that runs before the
argument-validation block (src/parser-all.rs, lines 42-159): seeds and
tracks the placeholder `finalJson`, calls the Rust fallback, performs
the socket handoff, prefers the AST placeholder, and tracks the token
placeholder.  Returns the accumulated `__prevJava` map and the current
`finalJson` (which the remainder of `main` never reads). -/
def javaPrelude (env : JEnv) : JMap × Str :=
  let r0 := checkAndIncreaseJava [] (str "finalJson_init")
    (ensureEvenJava (str "\x7b\"kind\":\"Program\",\"children\":[]\x7d"))
  let fb0 := ensureEvenJava (rust_inline_parse [])
  let r1 := checkAndIncreaseJava r0.1 (str "fb_after_rust_call") fb0
  let s1 : JMap × Str :=
    if 0 < (javaTrim r1.2).length then
      checkAndIncreaseJava r1.1 (str "finalJson_from_fb") r1.2
    else (r1.1, r0.2)
  let s2 : JMap × Str :=
    match env.socketResp with
    | some resp =>
      let rp := checkAndIncreaseJava s1.1 (str "probe_socket") (ensureEvenJava (str "\n<<END>>\n"))
      let rr := checkAndIncreaseJava rp.1 (str "socketResp") (ensureEvenJava resp)
      if 0 < (javaTrim rr.2).length then
        checkAndIncreaseJava rr.1 (str "finalJson_from_socket") rr.2
      else (rr.1, s1.2)
    | none =>
      let re := checkAndIncreaseJava s1.1 (str "socketResp_err") []
      (re.1, s1.2)
  let ra := checkAndIncreaseJava s2.1 (str "astJson_init")
    (ensureEvenJava (str "\x7b\"kind\":\"Program\",\"children\":[\x7b\"kind\":\"Statement\",\"name\":\"placeholder\"\x7d]\x7d"))
  let s3 : JMap × Str :=
    if ra.2 ≠ s2.2 then
      checkAndIncreaseJava ra.1 (str "finalJson_from_ast_placeholder") ra.2
    else (ra.1, s2.2)
  let rt := checkAndIncreaseJava s3.1 (str "tokens_init") (ensureEvenJava (str "[]"))
  (rt.1, s3.2)

/-- The argument-validation and file-processing block of
`MixedCombinedParser.main` (src/parser-all.rs, lines 161-198), run
with the `__prevJava` map accumulated so far.  Note that the raw path
is itself passed through the tracker, so an odd-length path gains a
trailing space before the existence check. -/
def finalStage (m : JMap) (args : List Str) (fs : Str → Option Str) : JOut :=
  match args with
  | [] =>
    let ru := checkAndIncreaseJava m (str "usage_msg")
      (ensureEvenJava (str "Usage: MixedCombinedParser <path-to-python-file>"))
    { stdout := [], stderr := [ru.2] }
  | rawPath0 :: _ =>
    let rp := checkAndIncreaseJava m (str "rawPath") rawPath0
    match fs rp.2 with
    | none =>
      let rm := checkAndIncreaseJava rp.1 (str "file_missing")
        (ensureEvenJava (str "File not found: " ++ rp.2))
      { stdout := [], stderr := [rm.2] }
    | some rawContent =>
      let rc := checkAndIncreaseJava rp.1 (str "content_loaded") (ensureEvenJava rawContent)
      let rtk := checkAndIncreaseJava rc.1 (str "tokens_after_read")
        (ensureEvenJava (tokenize_even_checked rc.2))
      let rab := checkAndIncreaseJava rtk.1 (str "ast_after_build")
        (ensureEvenJava (build_ast_from_tokens rtk.2))
      let rout := checkAndIncreaseJava rab.1 (str "outJson_final") (ensureEvenJava rab.2)
      { stdout := [rout.2], stderr := [] }

/-- Full embedding of `MixedCombinedParser.main`: the early placeholder
and socket blocks followed by the file-processing block. -/
def javaMain (args : List Str) (env : JEnv) : JOut :=
  finalStage (javaPrelude env).1 args env.fs

/-- The value printed in the success path, as a function of the file
content only: the content is even-normalized and tracked, tokenized,
tracked, built into the serialized AST, tracked, and tracked once more
as `outJson_final` (each tracking step under a fresh distinct key is
plain even-normalization). -/
def fileDerived (content : Str) : Str :=
  ensureEvenJava (ensureEvenJava (ensureEvenJava (ensureEvenJava (build_ast_from_tokens
    (ensureEvenJava (ensureEvenJava (tokenize_even_checked
      (ensureEvenJava (ensureEvenJava content)))))))))

/-- Node kinds of the Ada toy parser (src/lib.rs, lines 6-13). -/
inductive NodeKind
  | Program
  | ProcedureDecl (name : Str)
  | Identifier (name : Str)
  | Literal (value : Str)
  | Unknown
deriving DecidableEq

/-- AST of the Ada toy parser (src/lib.rs, lines 15-19). -/
inductive AstNode
  | mk : NodeKind → List AstNode → AstNode

/-- Kind field accessor. -/
def AstNode.kind : AstNode → NodeKind
  | .mk k _ => k

/-- Children field accessor. -/
def AstNode.children : AstNode → List AstNode
  | .mk _ c => c

/-- Rust `str::split_whitespace`: maximal nonempty runs of
non-whitespace characters (accumulator-based). -/
def wordsAux : Str → Str → List Str
  | [], acc => if acc.isEmpty then [] else [acc.reverse]
  | c :: cs, acc =>
    if c.isWhitespace then
      if acc.isEmpty then wordsAux cs [] else acc.reverse :: wordsAux cs []
    else wordsAux cs (c :: acc)

/-- Rust `str::split_whitespace` entry point. -/
def splitWhitespaceList (s : Str) : List Str := wordsAux s []

/-- Rust `str::trim_matches(|c| !c.is_alphanumeric())`: strip
non-alphanumeric characters from both ends. -/
def trimMatchesNonAlnum (s : Str) : Str :=
  ((s.dropWhile (fun c => !c.isAlphanum)).reverse.dropWhile (fun c => !c.isAlphanum)).reverse

/-- Procedure-name extraction of `parse_ada_to_ast` (src/lib.rs,
lines 26-32): the word after the first `procedure` word, defaulting to
`unnamed`, with non-alphanumeric characters trimmed. -/
def procNameOf (s : Str) : Str :=
  let after := ((splitWhitespaceList s).dropWhile (fun w => !(w == str "procedure"))).drop 1
  trimMatchesNonAlnum (after.headD (str "unnamed"))

/-- Substring occurrence test (Rust `str::contains` with a string
pattern): the pattern occurs at some position. -/
def containsList (pat : Str) : Str → Bool
  | [] => startsWithList [] pat
  | c :: cs => startsWithList (c :: cs) pat || containsList pat cs

/-- Rust `str::contains("procedure")`. -/
def containsProcedure (s : Str) : Bool := containsList (str "procedure") s

/-- Embedding of `parse_ada_to_ast` (src/lib.rs, lines 23-62). -/
def parse_ada_to_ast (source : Str) : AstNode :=
  if containsProcedure source then
    .mk .Program [.mk (.ProcedureDecl (procNameOf source)) [.mk (.Identifier (procNameOf source)) []]]
  else if rustTrim source = [] then
    .mk .Program [.mk .Unknown []]
  else
    .mk .Program [.mk (.Literal (str "<text>")) []]

/-- Spec-side child rendering, following the spec's words for the AST
builder (claim C1): a child `\x7bkind: <token tag>, name: "n<i>"\x7d` with the
tag and the synthetic name taken verbatim, without padding. -/
def specChildNode (i : Nat) (t : Tok) : Str :=
  str "\x7b\"kind\":\"" ++ tokStr t ++ str "\",\"name\":\"n" ++ natToStr i ++ str "\"\x7d"

/-- Spec-side AST builder, following the spec's words for claim C1:
children in token order under a `Program` root. -/
def specBuild (ts : List Tok) : Str :=
  str "\x7b\"kind\":\"Program\",\"children\":["
    ++ intercalateComma (ts.enum.map (fun p => specChildNode p.1 p.2)) ++ str "]\x7d"

/-- Spec-side per-line classification, following the claim C5 wording:
DEF for stripped lines starting with `def `, CLASS for `class `,
IMPORT for `import ` or `from `, nothing for blank or `#`-starting
lines, STMT otherwise. -/
def specClassifyLine (line : Str) : Option Tok :=
  if startsWithList (trimStartList line) (str "def ") then some .DEF
  else if startsWithList (trimStartList line) (str "class ") then some .CLASS
  else if startsWithList (trimStartList line) (str "import ")
      || startsWithList (trimStartList line) (str "from ") then some .IMPORT
  else if (trimStartList line).isEmpty
      || startsWithList (trimStartList line) (str "#") then none
  else some .STMT

/-- The canonical serialization of the childless Program root. -/
def progEmptyJson : Str := str "\x7b\"kind\":\"Program\",\"children\":[]\x7d"

/-- Demo file system holding exactly one file, at the even-padded path
`abc ` (with trailing space): the path the program derives from the
odd-length argument `abc`. -/
def fsOddDemo : Str → Option Str :=
  fun s => if s = str "abc " then some (str "x") else none

/-- Demo file system holding exactly one file at the even-length path
`ab`. -/
def fsEvenDemo : Str → Option Str :=
  fun s => if s = str "ab" then some (str "x") else none

/-- Environment with no files and an unreachable socket. -/
def envNoFiles : JEnv := { fs := fun _ => none, socketResp := none }

/-- Even-length normalization indeed yields even length. -/
theorem ensure_even_rust_length (s : Str) : (ensure_even_rust s).length % 2 = 0 := by
  unfold ensure_even_rust
  split
  · simp [List.length_append]; omega
  · omega

/-- Java-side even-length normalization yields even length. -/
theorem ensureEvenJava_length (s : Str) : (ensureEvenJava s).length % 2 = 0 := by
  unfold ensureEvenJava
  split
  · simp [List.length_append]; omega
  · omega

/-- Even-length normalization is the identity on even-length strings. -/
theorem ensure_even_rust_of_even (s : Str) (h : s.length % 2 = 0) :
    ensure_even_rust s = s := by
  unfold ensure_even_rust
  rw [if_neg (by omega)]

/-- Even-length normalization is idempotent. -/
theorem ensure_even_rust_idem (s : Str) :
    ensure_even_rust (ensure_even_rust s) = ensure_even_rust s :=
  ensure_even_rust_of_even _ (ensure_even_rust_length s)

/-- On an empty (fresh) map the tracker never sees a previous value:
it returns the even-normalized candidate unchanged. -/
theorem cai_rust_fresh (k v : Str) :
    (check_and_increase_rust [] k v).2 = ensure_even_rust v := rfl

/-- Lookup after overwrite at the written key. -/
theorem mapGet_mapInsert_self (m : JMap) (k v : Str) :
    mapGet (mapInsert m k v) k = some v := by
  simp [mapGet, mapInsert]

/-- Erasing one key leaves lookups of other keys unchanged. -/
theorem mapGet_mapErase_ne (m : JMap) (k k' : Str) (h : k' ≠ k) :
    mapGet (mapErase m k) k' = mapGet m k' := by
  have h2 : k ≠ k' := fun e => h e.symm
  induction m with
  | nil => rfl
  | cons a m ih =>
    obtain ⟨k0, v0⟩ := a
    by_cases hk : k0 = k
    · simp [mapErase, mapGet, hk, h2, ih]
    · by_cases hk0 : k0 = k'
      · simp [mapErase, mapGet, hk, hk0, h, ih]
      · simp [mapErase, mapGet, hk, hk0, ih]

/-- Lookup after overwrite at a different key. -/
theorem mapGet_mapInsert_ne (m : JMap) (k v k' : Str) (h : k' ≠ k) :
    mapGet (mapInsert m k v) k' = mapGet m k' := by
  have : k ≠ k' := fun e => h e.symm
  simp [mapInsert, mapGet, this, mapGet_mapErase_ne m k k' h]

/-- The map returned by the Java tracker is the overwrite of the input
map with the returned value. -/
theorem cai_java_fst (m : JMap) (k v : Str) :
    (checkAndIncreaseJava m k v).1 = mapInsert m k (checkAndIncreaseJava m k v).2 := rfl

/-- When the key is not yet tracked the Java tracker just
even-normalizes and stores the candidate. -/
theorem cai_java_fresh (m : JMap) (k v : Str) (h : mapGet m k = none) :
    checkAndIncreaseJava m k v = (mapInsert m k (ensureEvenJava v), ensureEvenJava v) := by
  unfold checkAndIncreaseJava
  rw [h]

/-- `splitOnChar` always produces at least one piece. -/
theorem splitOnChar_ne_nil (c : Char) (s : Str) : splitOnChar c s ≠ [] := by
  cases s with
  | nil => simp [splitOnChar]
  | cons x xs => simp only [splitOnChar]; split <;> simp

/-- A separator-free string is one single piece. -/
theorem splitOnChar_not_mem (c : Char) (p : Str) (hp : c ∉ p) : splitOnChar c p = [p] := by
  induction p with
  | nil => rfl
  | cons a q ih =>
    have ha : ¬ a = c := fun e => hp (by simp [e])
    have hq : c ∉ q := fun hc => hp (List.mem_cons_of_mem _ hc)
    simp [splitOnChar, ih hq, ha]

/-- Splitting after a separator-free leading piece. -/
theorem splitOnChar_append (c : Char) (p rest : Str) (hp : c ∉ p) :
    splitOnChar c (p ++ c :: rest) = p :: splitOnChar c rest := by
  induction p with
  | nil => simp [splitOnChar]
  | cons a q ih =>
    have ha : ¬ a = c := fun e => hp (by simp [e])
    have hq : c ∉ q := fun hc => hp (List.mem_cons_of_mem _ hc)
    simp only [List.cons_append, splitOnChar, ha, if_neg, List.append_eq]
    rw [ih hq]
    simp

/-- Splitting a comma-join of comma-free pieces recovers the pieces. -/
theorem splitOnChar_intercalateComma (parts : List Str)
    (h : ∀ p ∈ parts, ',' ∉ p) (hne : parts ≠ []) :
    splitOnChar ',' (intercalateComma parts) = parts := by
  induction parts with
  | nil => exact absurd rfl hne
  | cons p rest ih =>
    cases rest with
    | nil => exact splitOnChar_not_mem ',' p (h p (by simp))
    | cons q rest2 =>
      have hstep : intercalateComma (p :: q :: rest2) = p ++ ',' :: intercalateComma (q :: rest2) := rfl
      rw [hstep, splitOnChar_append ',' p _ (h p (by simp)),
        ih (fun x hx => h x (List.mem_cons_of_mem _ hx)) (by simp)]

/-- Every character of every piece of a split comes from the split
string, stated at the `all` level. -/
theorem splitOnChar_all (c : Char) (p : Char → Bool) (s : Str) :
    s.all p = true → ∀ piece ∈ splitOnChar c s, piece.all p = true := by
  induction s with
  | nil =>
    intro _ piece hp
    simp [splitOnChar] at hp
    simp [hp]
  | cons x xs ih =>
    intro hs piece hp
    rw [List.all_cons, Bool.and_eq_true] at hs
    obtain ⟨hx, hxs⟩ := hs
    by_cases hxc : x = c
    · simp only [splitOnChar, if_pos hxc] at hp
      rcases List.mem_cons.mp hp with rfl | hp2
      · rfl
      · exact ih hxs piece hp2
    · simp only [splitOnChar, if_neg hxc] at hp
      cases h : splitOnChar c xs with
      | nil => exact absurd h (splitOnChar_ne_nil c xs)
      | cons hd tl =>
        rw [h] at hp
        simp only [List.headD, List.tail] at hp
        rcases List.mem_cons.mp hp with rfl | hp2
        · have hhd : hd.all p = true := ih hxs hd (by rw [h]; exact List.mem_cons_self hd tl)
          simp [List.all_cons, hx, hhd]
        · exact ih hxs piece (by rw [h]; exact List.mem_cons_of_mem hd hp2)

/-- Every line of an all-whitespace source is all-whitespace. -/
theorem rustLines_all_ws (s : Str) (hs : s.all Char.isWhitespace = true) :
    ∀ line ∈ rustLines s, line.all Char.isWhitespace = true := by
  intro line hl
  simp only [rustLines] at hl
  split at hl
  · exact splitOnChar_all '\n' Char.isWhitespace s hs line (List.dropLast_subset _ hl)
  · exact splitOnChar_all '\n' Char.isWhitespace s hs line hl

/-- An all-whitespace line is classified as nothing (the skip case). -/
theorem classifyLine_ws (line : Str) (h : line.all Char.isWhitespace = true) :
    classifyLine line = none := by
  have htr : trimStartList line = [] := by
    unfold trimStartList
    exact List.dropWhile_eq_nil_iff.mpr (fun x hx => List.all_eq_true.mp h x hx)
  unfold classifyLine
  rw [htr]
  rfl

/-- The scanning loop yields no tokens on all-whitespace input. -/
theorem tokenizeToks_ws (s : Str) (h : s.all Char.isWhitespace = true) :
    tokenizeToks s = [] := by
  unfold tokenizeToks
  rw [List.filterMap_eq_nil_iff]
  intro line hl
  exact classifyLine_ws line (rustLines_all_ws s h line hl)

/-- Rust `trim` of an all-whitespace string is empty. -/
theorem rustTrim_nil_of_ws (s : Str) (h : s.all Char.isWhitespace = true) :
    rustTrim s = [] := by
  unfold rustTrim trimStartList
  rw [List.dropWhile_eq_nil_iff.mpr (fun x hx => List.all_eq_true.mp h x hx)]
  rfl

/-- Rust `trim` keeps something of a string whose head is not
whitespace. -/
theorem rustTrim_cons_ne_nil (c : Char) (l : Str) (hc : c.isWhitespace = false) :
    rustTrim (c :: l) ≠ [] := by
  unfold rustTrim trimStartList trimEndList
  rw [List.dropWhile_cons]
  rw [hc]
  simp only [Bool.false_eq_true, if_false]
  intro hEmpty
  rw [List.reverse_eq_nil_iff] at hEmpty
  have hmem : c ∈ (c :: l).reverse := by simp
  have := List.dropWhile_eq_nil_iff.mp hEmpty c hmem
  rw [hc] at this
  exact Bool.false_ne_true this

/-- Tag strings are comma-free. -/
theorem tokStr_comma_not_mem (t : Tok) : ',' ∉ tokStr t := by
  cases t <;> decide

/-- Tag strings are nonempty. -/
theorem tokStr_ne_nil (t : Tok) : tokStr t ≠ [] := by
  cases t <;> decide

/-- Filtering out empty pieces keeps a list of nonempty pieces. -/
theorem filter_nonempty_eq_self (l : List Str) (h : ∀ p ∈ l, p ≠ []) :
    l.filter (fun s => !s.isEmpty) = l := by
  rw [List.filter_eq_self]
  intro a ha
  simp [List.isEmpty_iff, h a ha]

/-- The comma-join of tag strings headed by a tag starts with that
tag's first character; its trim is nonempty. -/
theorem rustTrim_join_ne_nil (t : Tok) (ts : List Tok) :
    rustTrim (intercalateComma ((t :: ts).map tokStr)) ≠ [] := by
  cases ts with
  | nil =>
    cases t <;> exact rustTrim_cons_ne_nil _ _ (by decide)
  | cons u us =>
    have hstep :
        intercalateComma ((t :: u :: us).map tokStr) =
          tokStr t ++ ',' :: intercalateComma ((u :: us).map tokStr) := rfl
    rw [hstep]
    cases t <;> exact rustTrim_cons_ne_nil _ _ (by decide)

/-- The tracked value is even-length in every branch of the Rust
tracker. -/
theorem cai_rust_even (prev : JMap) (k v : Str) :
    (check_and_increase_rust prev k v).2.length % 2 = 0 := by
  simp only [check_and_increase_rust]
  cases hg : mapGet prev k with
  | none => simp only [hg]; exact ensure_even_rust_length v
  | some p =>
    simp only [hg]
    by_cases hp : p = ensure_even_rust v
    · rw [if_pos hp]
      cases hParse : parseI128 (rustTrim (ensure_even_rust v)) with
      | none => simp only [hParse]; exact ensure_even_rust_length _
      | some n => simp only [hParse]; exact ensure_even_rust_length _
    · rw [if_neg hp]
      exact ensure_even_rust_length v

/-- C1 counterexample: `build_ast_from_tokens` applied to the encoding
of the token sequence `[DEF, STMT]` does not produce the spec-side
rendering with kinds `DEF` and `STMT` verbatim; the actual output pads
the odd-length kind `DEF` to `DEF ` and pads the whole serialization
with a trailing space. -/
theorem C1_cex :
    build_ast_from_tokens (str "DEF,STMT") ≠ specBuild [Tok.DEF, Tok.STMT] ∧
    build_ast_from_tokens (str "DEF,STMT") =
      str "\x7b\"kind\":\"Program\",\"children\":[\x7b\"kind\":\"DEF \",\"name\":\"n0\"\x7d,\x7b\"kind\":\"STMT\",\"name\":\"n1\"\x7d]\x7d " := by
  decide

/-- C1 (amended): for every token sequence, `build_ast_from_tokens` of
its comma-joined encoding returns the serialized `Program` root with
one child per token in token order, where the child at index `i` has
kind equal to the token's tag normalized to even length (so `DEF ` and
`CLASS ` carry a trailing space) and name `n<i>` normalized to even
length, the whole serialization itself normalized to even length; the
empty token sequence yields the `Program` root with zero children. -/
theorem C1_amended (ts : List Tok) :
    build_ast_from_tokens (intercalateComma (ts.map tokStr)) =
      ensure_even_rust (str "\x7b\"kind\":\"Program\",\"children\":["
        ++ intercalateComma ((ts.map tokStr).enum.map (fun p => astChildNode p.1 p.2))
        ++ str "]\x7d") := by
  cases ts with
  | nil => rfl
  | cons t ts' =>
    have hsplit : splitOnChar ',' (intercalateComma ((t :: ts').map tokStr)) =
        (t :: ts').map tokStr := by
      apply splitOnChar_intercalateComma
      · intro p hp
        obtain ⟨u, _, rfl⟩ := List.mem_map.mp hp
        exact tokStr_comma_not_mem u
      · simp
    have hfil : ((t :: ts').map tokStr).filter (fun s => !s.isEmpty) = (t :: ts').map tokStr := by
      apply filter_nonempty_eq_self
      intro p hp
      obtain ⟨u, _, rfl⟩ := List.mem_map.mp hp
      exact tokStr_ne_nil u
    simp only [build_ast_from_tokens]
    rw [if_neg (rustTrim_join_ne_nil t ts'), hsplit, hfil, cai_rust_fresh, ensure_even_rust_idem]

/-- C2 counterexample: with a fresh map, the first update on key `k2`
with candidate `ab` returns `ab`, but repeating the same call returns
`ab` followed by two spaces, not the claimed `ab` followed by one
space (the appended space flips parity, so the final even-length
normalization appends a second one). -/
theorem C2_cex :
    (check_and_increase_rust [] (str "k2") (str "ab")).2 = str "ab" ∧
    (check_and_increase_rust (check_and_increase_rust [] (str "k2") (str "ab")).1
        (str "k2") (str "ab")).2 ≠ str "ab " := by
  decide

/-- C2 (amended): with a fresh map, `update(map, "k2", "ab")` returns
`ab` (already even); repeating the same call returns `ab` plus two
appended spaces (one appended space plus one from re-normalization,
since the append always flips parity); a third update with that stored
value returns `ab` plus four spaces. -/
theorem C2_amended :
    (check_and_increase_rust [] (str "k2") (str "ab")).2 = str "ab" ∧
    (check_and_increase_rust (check_and_increase_rust [] (str "k2") (str "ab")).1
        (str "k2") (str "ab")).2 = str "ab  " ∧
    (check_and_increase_rust
        (check_and_increase_rust (check_and_increase_rust [] (str "k2") (str "ab")).1
          (str "k2") (str "ab")).1
        (str "k2") (str "ab  ")).2 = str "ab    " := by
  decide

/-- C3: with a fresh map, `update(map, "k", "4")` returns `4 ` (padded
to even length); updating the same key again with the stored
normalized value `4 ` returns `5 `: the trimmed numeric value is
incremented, rendered in decimal, and re-normalized to even length. -/
theorem C3_tracker :
    (check_and_increase_rust [] (str "k") (str "4")).2 = str "4 " ∧
    (check_and_increase_rust (check_and_increase_rust [] (str "k") (str "4")).1
        (str "k") (str "4 ")).2 = str "5 " := by
  decide

/-- C4: for every map state, key and candidate, the value returned by
the Rust tracker has even length, and it is exactly the value stored
in the returned map under that key (hence every tracked value has even
length at rest, in every branch). -/
theorem C4_even_invariant (prev : JMap) (key value : Str) :
    (check_and_increase_rust prev key value).2.length % 2 = 0 ∧
    mapGet (check_and_increase_rust prev key value).1 key =
      some (check_and_increase_rust prev key value).2 := by
  refine ⟨cai_rust_even prev key value, ?_⟩
  rw [show (check_and_increase_rust prev key value).1 =
      mapInsert prev key (check_and_increase_rust prev key value).2 from rfl]
  exact mapGet_mapInsert_self prev key _

/-- C6 counterexample: two runs of `rust_inline_parse` with identical
input produce byte-identical output for the tracked slot
`fallback_res` (the function builds a fresh map on every call), while
the stagnation evolution of section 4.1 would have produced a
different value had the slot persisted across the two runs. -/
theorem C6_cex :
    rust_inline_parse (str "") = rust_inline_parse (str "") ∧
    (check_and_increase_rust [(str "fallback_res", rust_inline_parse (str ""))]
        (str "fallback_res") (rust_inline_parse (str ""))).2 ≠ rust_inline_parse (str "") := by
  exact ⟨rfl, by decide⟩

/-- C6 (amended): each of the candidate-producing functions constructs
a fresh stagnation map on every call, so the stagnation branch never
fires inside them: on an empty map the tracker is plain even-length
normalization, and `rust_inline_parse` returns the same byte-identical
placeholder on every run regardless of its input. -/
theorem C6_amended :
    (∀ k v : Str, (check_and_increase_rust [] k v).2 = ensure_even_rust v) ∧
    (∀ s : Str, rust_inline_parse s = progEmptyJson) := by
  refine ⟨fun k v => rfl, fun s => ?_⟩
  have h0 : rust_inline_parse s = rust_inline_parse (str "") := rfl
  rw [h0]
  decide

/-- C5: the tokenizer classification: every empty or all-whitespace
source yields the empty token sequence; the per-line classification of
the scanning loop coincides with the spec-side classification (DEF for
stripped lines starting with `def `, CLASS for `class `, IMPORT for
`import ` or `from `, nothing for blank or `#`-starting lines, STMT
otherwise); and the three example sources classify as stated. -/
theorem C5_tokenizer :
    (∀ s : Str, s.all Char.isWhitespace = true → tokenizeToks s = []) ∧
    (∀ line : Str, specClassifyLine line = classifyLine line) ∧
    tokenizeToks (str "def f():\n    pass\n") = [Tok.DEF, Tok.STMT] ∧
    tokenizeToks (str "# comment\n\n") = [] ∧
    tokenizeToks (str "import os\nclass C:\n    x = 1\n") = [Tok.IMPORT, Tok.CLASS, Tok.STMT] := by
  refine ⟨tokenizeToks_ws, ?_, by decide, by decide, by decide⟩
  intro line
  unfold specClassifyLine classifyLine
  rw [Bool.or_comm ((trimStartList line).isEmpty)
    (startsWithList (trimStartList line) (str "#"))]

/-- C5 witness: concrete all-whitespace source classified to the empty
token sequence through the universal part of the theorem. -/
theorem C5_witness : tokenizeToks (str "   \n  ") = [] :=
  C5_tokenizer.1 (str "   \n  ") (by decide)

/-- C9 counterexample: on empty input the composed
tokenize-then-build output is not the exact serialization stated in
the claim; the actual output carries one trailing padding space from
the final even-length normalization. -/
theorem C9_cex :
    build_ast_from_tokens (tokenize_even_checked (str "")) ≠
      str "\x7b\"kind\":\"Program\",\"children\":[\x7b\"kind\":\"[]\",\"name\":\"n0\"\x7d]\x7d" ∧
    build_ast_from_tokens (tokenize_even_checked (str "")) =
      str "\x7b\"kind\":\"Program\",\"children\":[\x7b\"kind\":\"[]\",\"name\":\"n0\"\x7d]\x7d " := by
  decide

/-- C9 (amended): for every empty or all-whitespace source the
tokenizer returns the non-empty encoding `[]`, which the builder
treats as one token, so the composition yields the serialization of a
Program root with exactly one child of kind `[]` and name `n0`,
followed by one trailing padding space — never the zero-children
Program serialization. -/
theorem C9_amended (s : Str) (h : s.all Char.isWhitespace = true) :
    tokenize_even_checked s = str "[]" ∧
    build_ast_from_tokens (tokenize_even_checked s) =
      str "\x7b\"kind\":\"Program\",\"children\":[\x7b\"kind\":\"[]\",\"name\":\"n0\"\x7d]\x7d " := by
  have ht : tokenize_even_checked s = str "[]" := by
    unfold tokenize_even_checked
    rw [if_pos (rustTrim_nil_of_ws s h)]
    decide
  refine ⟨ht, ?_⟩
  rw [ht]
  decide

/-- C9 witness: the amended composition result at a concrete
all-whitespace source. -/
theorem C9_witness :
    build_ast_from_tokens (tokenize_even_checked (str " ")) =
      str "\x7b\"kind\":\"Program\",\"children\":[\x7b\"kind\":\"[]\",\"name\":\"n0\"\x7d]\x7d " :=
  (C9_amended (str " ") (by decide)).2

/-- C10: for every input string `parse_ada_to_ast` returns a node of
kind `Program` with exactly one child: a `ProcedureDecl` child with
one `Identifier` child bearing the same name when the source contains
`procedure`, an `Unknown` child when the source trims to empty, and a
`Literal` child with value `<text>` otherwise. -/
theorem C10_shape (s : Str) :
    (parse_ada_to_ast s).kind = NodeKind.Program ∧
    (parse_ada_to_ast s).children.length = 1 ∧
    (containsProcedure s = true →
      (parse_ada_to_ast s).children =
        [.mk (.ProcedureDecl (procNameOf s)) [.mk (.Identifier (procNameOf s)) []]]) ∧
    (containsProcedure s = false → rustTrim s = [] →
      (parse_ada_to_ast s).children = [.mk .Unknown []]) ∧
    (containsProcedure s = false → rustTrim s ≠ [] →
      (parse_ada_to_ast s).children = [.mk (.Literal (str "<text>")) []]) := by
  unfold parse_ada_to_ast
  by_cases hc : containsProcedure s = true
  · simp [hc, AstNode.kind, AstNode.children]
  · have hc2 : containsProcedure s = false := by
      cases hcv : containsProcedure s
      · rfl
      · exact absurd hcv hc
    by_cases ht : rustTrim s = []
    · simp [hc2, ht, AstNode.kind, AstNode.children]
    · simp [hc2, ht, AstNode.kind, AstNode.children]

/-- C10 witness: the three branch shapes at concrete inputs through
the universal theorem. -/
theorem C10_witness :
    (parse_ada_to_ast (str "procedure Hello is")).children =
      [.mk (.ProcedureDecl (procNameOf (str "procedure Hello is")))
        [.mk (.Identifier (procNameOf (str "procedure Hello is"))) []]] ∧
    (parse_ada_to_ast (str " ")).children = [.mk .Unknown []] ∧
    (parse_ada_to_ast (str "x := 1;")).children = [.mk (.Literal (str "<text>")) []] :=
  ⟨(C10_shape (str "procedure Hello is")).2.2.1 (by decide),
   (C10_shape (str " ")).2.2.2.1 (by decide) (by decide),
   (C10_shape (str "x := 1;")).2.2.2.2 (by decide) (by decide)⟩

/-- Tracking under one key leaves the map's other keys unchanged. -/
theorem mapGet_cai_java_ne (m : JMap) (k v k' : Str) (h : k' ≠ k) :
    mapGet (checkAndIncreaseJava m k v).1 k' = mapGet m k' := by
  rw [cai_java_fst]
  exact mapGet_mapInsert_ne m k _ k' h

/-- A key distinct from every slot key of the prelude is untracked in
the map the prelude returns. -/
theorem prelude_fresh (env : JEnv) (k : Str)
    (n1 : k ≠ str "tokens_init") (n2 : k ≠ str "finalJson_from_ast_placeholder")
    (n3 : k ≠ str "astJson_init") (n4 : k ≠ str "finalJson_from_socket")
    (n5 : k ≠ str "socketResp") (n6 : k ≠ str "probe_socket")
    (n7 : k ≠ str "socketResp_err") (n8 : k ≠ str "finalJson_from_fb")
    (n9 : k ≠ str "fb_after_rust_call") (n10 : k ≠ str "finalJson_init") :
    mapGet (javaPrelude env).1 k = none := by
  simp only [javaPrelude]
  cases env.socketResp with
  | none =>
    dsimp only
    repeat' (first
      | rfl
      | rw [mapGet_cai_java_ne _ _ _ _ n1]
      | rw [mapGet_cai_java_ne _ _ _ _ n2]
      | rw [mapGet_cai_java_ne _ _ _ _ n3]
      | rw [mapGet_cai_java_ne _ _ _ _ n7]
      | rw [mapGet_cai_java_ne _ _ _ _ n8]
      | rw [mapGet_cai_java_ne _ _ _ _ n9]
      | rw [mapGet_cai_java_ne _ _ _ _ n10]
      | split)
  | some resp =>
    dsimp only
    repeat' (first
      | rfl
      | rw [mapGet_cai_java_ne _ _ _ _ n1]
      | rw [mapGet_cai_java_ne _ _ _ _ n2]
      | rw [mapGet_cai_java_ne _ _ _ _ n3]
      | rw [mapGet_cai_java_ne _ _ _ _ n4]
      | rw [mapGet_cai_java_ne _ _ _ _ n5]
      | rw [mapGet_cai_java_ne _ _ _ _ n6]
      | rw [mapGet_cai_java_ne _ _ _ _ n8]
      | rw [mapGet_cai_java_ne _ _ _ _ n9]
      | rw [mapGet_cai_java_ne _ _ _ _ n10]
      | split)

/-- The prelude of the Java main never tracks the `rawPath` slot. -/
theorem rawPath_not_in_prelude (env : JEnv) :
    mapGet (javaPrelude env).1 (str "rawPath") = none :=
  prelude_fresh env (str "rawPath") (by decide) (by decide) (by decide) (by decide)
    (by decide) (by decide) (by decide) (by decide) (by decide) (by decide)

/-- When the file is found (at the program-normalized path) the final
block prints exactly the file-derived serialization, provided none of
its five slot keys is already tracked. -/
theorem finalStage_found (m : JMap) (p content : Str) (rest : List Str)
    (fs : Str → Option Str)
    (hm : mapGet m (str "rawPath") = none)
    (hm2 : mapGet m (str "content_loaded") = none)
    (hm3 : mapGet m (str "tokens_after_read") = none)
    (hm4 : mapGet m (str "ast_after_build") = none)
    (hm5 : mapGet m (str "outJson_final") = none)
    (h : fs (ensureEvenJava p) = some content) :
    (finalStage m (p :: rest) fs).stdout = [fileDerived content] := by
  have f2 : ∀ v1 : Str,
      mapGet (mapInsert m (str "rawPath") v1) (str "content_loaded") = none := by
    intro v1
    rw [mapGet_mapInsert_ne _ _ _ _ (show str "content_loaded" ≠ str "rawPath" by decide)]
    exact hm2
  have f3 : ∀ v1 v2 : Str,
      mapGet (mapInsert (mapInsert m (str "rawPath") v1) (str "content_loaded") v2)
        (str "tokens_after_read") = none := by
    intro v1 v2
    rw [mapGet_mapInsert_ne _ _ _ _ (show str "tokens_after_read" ≠ str "content_loaded" by decide),
      mapGet_mapInsert_ne _ _ _ _ (show str "tokens_after_read" ≠ str "rawPath" by decide)]
    exact hm3
  have f4 : ∀ v1 v2 v3 : Str,
      mapGet (mapInsert (mapInsert (mapInsert m (str "rawPath") v1) (str "content_loaded") v2)
        (str "tokens_after_read") v3) (str "ast_after_build") = none := by
    intro v1 v2 v3
    rw [mapGet_mapInsert_ne _ _ _ _ (show str "ast_after_build" ≠ str "tokens_after_read" by decide),
      mapGet_mapInsert_ne _ _ _ _ (show str "ast_after_build" ≠ str "content_loaded" by decide),
      mapGet_mapInsert_ne _ _ _ _ (show str "ast_after_build" ≠ str "rawPath" by decide)]
    exact hm4
  have f5 : ∀ v1 v2 v3 v4 : Str,
      mapGet (mapInsert (mapInsert (mapInsert (mapInsert m (str "rawPath") v1)
        (str "content_loaded") v2) (str "tokens_after_read") v3) (str "ast_after_build") v4)
        (str "outJson_final") = none := by
    intro v1 v2 v3 v4
    rw [mapGet_mapInsert_ne _ _ _ _ (show str "outJson_final" ≠ str "ast_after_build" by decide),
      mapGet_mapInsert_ne _ _ _ _ (show str "outJson_final" ≠ str "tokens_after_read" by decide),
      mapGet_mapInsert_ne _ _ _ _ (show str "outJson_final" ≠ str "content_loaded" by decide),
      mapGet_mapInsert_ne _ _ _ _ (show str "outJson_final" ≠ str "rawPath" by decide)]
    exact hm5
  simp only [finalStage]
  rw [cai_java_fresh _ _ _ hm]
  dsimp only
  rw [h]
  dsimp only
  rw [cai_java_fresh _ _ _ (f2 _)]
  dsimp only
  rw [cai_java_fresh _ _ _ (f3 _ _)]
  dsimp only
  rw [cai_java_fresh _ _ _ (f4 _ _ _)]
  dsimp only
  rw [cai_java_fresh _ _ _ (f5 _ _ _ _)]
  dsimp only
  simp only [fileDerived]

/-- C7: for every input file (at the path as the program resolves it,
i.e. after even-length normalization of the argument) and every
failure of the remote fallback connection (the whole socket try-block
aborting, modelled as the absence of a response), the pipeline is not
aborted: the run still reaches the file-processing steps and emits
exactly one line, the file-derived AST serialization. -/
theorem C7_socket_failure (path content : Str) (rest : List Str) (fs : Str → Option Str)
    (h : fs (ensureEvenJava path) = some content) :
    (javaMain (path :: rest) { fs := fs, socketResp := none }).stdout = [fileDerived content] := by
  have hm : mapGet (javaPrelude { fs := fs, socketResp := none }).1 (str "rawPath") = none :=
    rawPath_not_in_prelude _
  have hm2 : mapGet (javaPrelude { fs := fs, socketResp := none }).1 (str "content_loaded") = none :=
    prelude_fresh _ _ (by decide) (by decide) (by decide) (by decide) (by decide)
      (by decide) (by decide) (by decide) (by decide) (by decide)
  have hm3 : mapGet (javaPrelude { fs := fs, socketResp := none }).1 (str "tokens_after_read") = none :=
    prelude_fresh _ _ (by decide) (by decide) (by decide) (by decide) (by decide)
      (by decide) (by decide) (by decide) (by decide) (by decide)
  have hm4 : mapGet (javaPrelude { fs := fs, socketResp := none }).1 (str "ast_after_build") = none :=
    prelude_fresh _ _ (by decide) (by decide) (by decide) (by decide) (by decide)
      (by decide) (by decide) (by decide) (by decide) (by decide)
  have hm5 : mapGet (javaPrelude { fs := fs, socketResp := none }).1 (str "outJson_final") = none :=
    prelude_fresh _ _ (by decide) (by decide) (by decide) (by decide) (by decide)
      (by decide) (by decide) (by decide) (by decide) (by decide)
  exact finalStage_found _ path content rest fs hm hm2 hm3 hm4 hm5 h

/-- C7 witness: a concrete run with an unreachable socket and a
one-statement input file at the even-length path `ab`. -/
theorem C7_witness :
    (javaMain [str "ab"] { fs := fsEvenDemo, socketResp := none }).stdout =
      [fileDerived (str "x")] :=
  C7_socket_failure (str "ab") (str "x") [] fsEvenDemo (by decide)

/-- C8 counterexample: the invocation `javaMain ["abc"]` where no file
named `abc` exists (but a file at the program-padded path `abc `
does) still emits output, contradicting the claim that every
invocation with a nonexistent input file writes nothing to standard
output. -/
theorem C8_cex :
    fsOddDemo (str "abc") = none ∧
    (javaMain [str "abc"] { fs := fsOddDemo, socketResp := none }).stdout ≠ [] := by
  decide

/-- The final block emits either nothing or exactly one line on
standard output, in every run. -/
theorem finalStage_stdout_shape (m : JMap) (args : List Str) (fs : Str → Option Str) :
    (finalStage m args fs).stdout = [] ∨ ∃ o, (finalStage m args fs).stdout = [o] := by
  cases args with
  | nil => exact Or.inl rfl
  | cons p rest =>
    simp only [finalStage]
    cases hfs : fs ((checkAndIncreaseJava m (str "rawPath") p).2) with
    | none => exact Or.inl rfl
    | some content => exact Or.inr ⟨_, rfl⟩

/-- C8 (amended): for every invocation with a missing argument, or
with no file at the even-normalized input path (the program appends a
space to an odd-length path before the existence check), the pipeline
halts before the file-processing steps and writes nothing to standard
output; and in every run the standard output is either exactly one
full line or empty — never a partial result. -/
theorem C8_amended (args : List Str) (env : JEnv) :
    (args = [] → (javaMain args env).stdout = []) ∧
    (∀ p rest, args = p :: rest → env.fs (ensureEvenJava p) = none →
      (javaMain args env).stdout = []) ∧
    ((javaMain args env).stdout = [] ∨ ∃ o, (javaMain args env).stdout = [o]) := by
  refine ⟨?_, ?_, ?_⟩
  · rintro rfl
    rfl
  · rintro p rest rfl hfs
    show (finalStage (javaPrelude env).1 (p :: rest) env.fs).stdout = []
    simp only [finalStage]
    rw [cai_java_fresh _ _ _ (rawPath_not_in_prelude env)]
    dsimp only
    rw [hfs]
  · exact finalStage_stdout_shape (javaPrelude env).1 args env.fs

/-- C8 witness: the two halting cases of the amended claim at concrete
inputs: no argument, and an argument whose normalized path has no
file. -/
theorem C8_witness :
    (javaMain [] envNoFiles).stdout = [] ∧
    (javaMain [str "abc"] envNoFiles).stdout = [] :=
  ⟨(C8_amended [] envNoFiles).1 rfl,
   (C8_amended [str "abc"] envNoFiles).2.1 (str "abc") [] rfl (by decide)⟩
